import Mathlib

/-!
Verification of the stalk-web marker update and reconciliation engine.

The development shallowly embeds the client-side logic of
`src/services/markerService.ts` and `src/components/MapComponent.vue`:
stateful module code becomes explicit state passing over `ServiceState`,
`MapState` and `CtrlState`; network and timer callbacks become events fed
to pure step functions; JavaScript's untyped JSON values that reach the
store are modelled by `JNum` so that malformed records can flow exactly as
they do at runtime.
-/

namespace StalkWeb

/-- A JSON field value as it arrives over the wire.  The TypeScript code
casts `JSON.parse` output to `MarkerData` without validation, so at runtime
the `latitude` and `longitude` fields can be numbers, strings, or missing. -/
inductive JNum where
  | num (v : Int)
  | str (s : String)
  | missing
deriving Repr, DecidableEq

/-- `MarkerData` from `markerService.ts`: a named entity with coordinates
and an ISO-8601 timestamp string.  Coordinates are `JNum` because the code
performs no runtime validation of the parsed JSON. -/
structure MarkerData where
  name : String
  latitude : JNum
  longitude : JNum
  timestamp : String
deriving Repr, DecidableEq

/-- `ZoomLevel` enum from `markerService.ts`. -/
inductive ZoomLevel where
  | Close
  | Medium
  | Far
  | VeryFar
  | CountryFar
deriving Repr, DecidableEq

/-- Numeric value of each `ZoomLevel` enum member. -/
def ZoomLevel.toNat : ZoomLevel → Nat
  | .Close => 18
  | .Medium => 15
  | .Far => 10
  | .VeryFar => 6
  | .CountryFar => 4

/-- `UpdateMode` enum from `markerService.ts`. -/
inductive UpdateMode where
  | Poll
  | Live
deriving Repr, DecidableEq

/-- The reactive store of `markerService.ts`: `markers`, `isLoading`,
`error`, `currentName`. -/
structure ServiceState where
  markers : List MarkerData
  isLoading : Bool
  error : Option String
  currentName : Option String
deriving Repr, DecidableEq

/-- Initial store state (`ref([])`, `ref(false)`, `ref(null)`, `ref(null)`). -/
def ServiceState.init : ServiceState :=
  { markers := [], isLoading := false, error := none, currentName := none }

/-- Outcome of an HTTP fetch of the all-markers endpoint: a decoded JSON
body, a non-2xx status (`!response.ok`), or a rejected promise / network
error carrying the thrown message. -/
inductive FetchOutcome where
  | ok (data : List MarkerData)
  | httpError (status : Nat)
  | networkError (msg : String)
deriving Repr, DecidableEq

/-- Body of a named-lookup response: the API may return an array or a
single object (`Array.isArray(data) ? data : [data]`). -/
inductive NamedBody where
  | arr (l : List MarkerData)
  | single (m : MarkerData)
deriving Repr, DecidableEq

/-- Outcome of an HTTP fetch of the single-name endpoint. -/
inductive NamedOutcome where
  | ok (body : NamedBody)
  | httpError (status : Nat)
  | networkError (msg : String)
deriving Repr, DecidableEq

/-- `fetchMarkerData` from `markerService.ts`, with the network outcome
made explicit.  On success the snapshot replaces `markers`; on any failure
`error` is set to the thrown message and `markers` is left untouched;
`isLoading` is cleared in the `finally` block. -/
def fetchMarkerData (outcome : FetchOutcome) (st : ServiceState) : ServiceState :=
  match outcome with
  | .ok data =>
      { st with markers := data, error := none, isLoading := false }
  | .httpError status =>
      { st with error := some ("API request failed with status " ++ toString status),
                isLoading := false }
  | .networkError msg =>
      { st with error := some msg, isLoading := false }

/-- `fetchMarkerByName` from `markerService.ts`.  `currentName` is set
before the fetch; a 404 produces the distinct not-found message; every
failure clears `markers` to `[]` in the catch block. -/
def fetchMarkerByName (name : String) (outcome : NamedOutcome) (st : ServiceState) :
    ServiceState :=
  match outcome with
  | .ok (.arr l) =>
      { st with currentName := some name, markers := l, error := none, isLoading := false }
  | .ok (.single m) =>
      { st with currentName := some name, markers := [m], error := none, isLoading := false }
  | .httpError status =>
      { st with currentName := some name,
                error := some (if status = 404 then
                    "No user named \"" ++ name ++ "\" known..."
                  else
                    "API request failed with status " ++ toString status),
                markers := [],
                isLoading := false }
  | .networkError msg =>
      { st with currentName := some name, error := some msg, markers := [],
                isLoading := false }

/-- The by-name upsert of `applyMarkerUpdate`'s all-users branch:
`findIndex` + `splice(idx, 1, m)` replaces the first entry with the same
name in place, otherwise `push` appends at the end. -/
def upsertByName (m : MarkerData) : List MarkerData → List MarkerData
  | [] => [m]
  | x :: xs => if x.name = m.name then m :: xs else x :: upsertByName m xs

/-- `applyMarkerUpdate` from `markerService.ts`: with a single-user filter
(`currentName` non-null) the whole set is replaced by `[m]`; otherwise the
record is upserted by name. -/
def applyMarkerUpdate (m : MarkerData) (st : ServiceState) : ServiceState :=
  match st.currentName with
  | some _ => { st with markers := [m] }
  | none => { st with markers := upsertByName m st.markers }

/-- An inbound WebSocket message as seen by `ws.onmessage`: either
`JSON.parse` throws (syntactically invalid JSON) or it yields a record,
possibly with missing or non-numeric coordinate fields. -/
inductive WsEvent where
  | parseFail (raw : String)
  | parsed (m : MarkerData)
deriving Repr, DecidableEq

/-- `ws.onmessage` from `markerService.ts`: the try/catch around
`JSON.parse` drops unparsable messages (the error is only logged); a
parsed record is applied unconditionally via `applyMarkerUpdate`. -/
def wsOnMessage (evt : WsEvent) (st : ServiceState) : ServiceState :=
  match evt with
  | .parseFail _ => st
  | .parsed m => applyMarkerUpdate m st

/-- A batch of inbound live messages processed in order. -/
def processBatch (batch : List WsEvent) (st : ServiceState) : ServiceState :=
  match batch with
  | [] => st
  | e :: es => processBatch es (wsOnMessage e st)

/-- Whether a JSON field holds a number. -/
def JNum.isNum : JNum → Bool
  | .num _ => true
  | _ => false

/-- A record is well-formed when both coordinates are numeric. -/
def MarkerData.wellFormed (m : MarkerData) : Bool :=
  m.latitude.isNum && m.longitude.isNum

/-- An entry of `markerByName` in `MapComponent.vue`: a Leaflet marker
handle (identified here by an allocation id) together with the tracked
name, position and timestamp. -/
structure TrackedMarker where
  id : Nat
  name : String
  lat : JNum
  lng : JNum
  timestamp : String
deriving Repr, DecidableEq

/-- The reconciliation state owned by `MapComponent.vue`:
`markerByName` (a JS `Map`, modelled as an association list in insertion
order), `markerInstances`, the free-roam pair, and a counter supplying
fresh handle ids for `L.marker(...)` allocations. -/
structure MapState where
  markerByName : List (String × TrackedMarker)
  markerInstances : List TrackedMarker
  freeRoamingMode : Bool
  autoEnforcedFreeRoaming : Bool
  nextId : Nat
deriving Repr, DecidableEq

/-- View commands emitted towards the Leaflet map by a reconciliation
pass: `map.setView([lat, lng], zoom)` or `map.fitBounds(bounds, ...)`. -/
inductive ViewCmd where
  | setView (lat lng : JNum) (zoom : Nat)
  | fitBounds
deriving Repr, DecidableEq

/-- First entry with the given name in an association list (JS
`Map.get`). -/
def lookupName (n : String) : List (String × TrackedMarker) → Option TrackedMarker
  | [] => none
  | p :: ps => if p.1 = n then some p.2 else lookupName n ps

/-- One iteration of the upsert loop of `updateMapMarkers`: an existing
handle is moved in place (`setLatLng`) and its timestamp updated, keeping
its identity and map position; a new name allocates a fresh handle and
`Map.set` appends it in iteration order. -/
def upsertTracked (m : MarkerData) (assoc : List (String × TrackedMarker)) (nextId : Nat) :
    List (String × TrackedMarker) × Nat :=
  match lookupName m.name assoc with
  | some _ =>
      (assoc.map (fun p =>
        if p.1 = m.name then
          (p.1, { p.2 with lat := m.latitude, lng := m.longitude, timestamp := m.timestamp })
        else p), nextId)
  | none =>
      (assoc ++ [(m.name, ⟨nextId, m.name, m.latitude, m.longitude, m.timestamp⟩)],
       nextId + 1)

/-- The upsert loop of `updateMapMarkers` over the whole snapshot. -/
def upsertAll (snapshot : List MarkerData) (assoc : List (String × TrackedMarker))
    (nextId : Nat) : List (String × TrackedMarker) × Nat :=
  match snapshot with
  | [] => (assoc, nextId)
  | m :: ms =>
      let r := upsertTracked m assoc nextId
      upsertAll ms r.1 r.2

/-- `updateMapMarkers` from `MapComponent.vue`, as a pure function from
the store snapshot and the component state to the new component state and
the view commands issued during the pass.

Empty snapshot: all handles are removed from the layer and the tracking
structures cleared; if free-roam was off it is forced on and recorded as
auto-enforced; the default-view `setView([62, 15], CountryFar)` is guarded
by `!freeRoamingMode.value` evaluated after that forcing.

Non-empty snapshot: a previously auto-enforced free-roam is lifted; every
record is upserted by name; handles whose names are absent from the
snapshot are removed; `markerInstances` is rebuilt from the map's values;
if free-roam is off the view is centered on a single marker at the current
zoom or fitted to the bounds of several.

The Leaflet `L.latLng` boundary is total here, which matches the source
only for snapshots of records with numeric coordinates; the throwing
boundary is modelled by `updateMapMarkersThrow`, which agrees with this
function on such snapshots (`updateMapMarkersThrow_eq_of_wellFormed`). -/
def updateMapMarkers (snapshot : List MarkerData) (zoom : ZoomLevel) (st : MapState) :
    MapState × List ViewCmd :=
  if snapshot.length = 0 then
    let st1 : MapState := { st with markerByName := [], markerInstances := [] }
    let st2 : MapState :=
      if st1.freeRoamingMode = false then
        { st1 with freeRoamingMode := true, autoEnforcedFreeRoaming := true }
      else st1
    let cmds : List ViewCmd :=
      if st2.freeRoamingMode = false then
        [ViewCmd.setView (JNum.num 62) (JNum.num 15) ZoomLevel.CountryFar.toNat]
      else []
    (st2, cmds)
  else
    let st1 : MapState :=
      if st.autoEnforcedFreeRoaming && st.freeRoamingMode then
        { st with freeRoamingMode := false, autoEnforcedFreeRoaming := false }
      else st
    let r := upsertAll snapshot st1.markerByName st1.nextId
    let assoc2 := r.1.filter (fun p => snapshot.any (fun m => m.name = p.1))
    let insts := assoc2.map Prod.snd
    let cmds : List ViewCmd :=
      if st1.freeRoamingMode = false then
        if snapshot.length = 1 then
          match snapshot.head? with
          | some single => [ViewCmd.setView single.latitude single.longitude zoom.toNat]
          | none => []
        else [ViewCmd.fitBounds]
      else []
    ({ st1 with markerByName := assoc2, markerInstances := insts, nextId := r.2 }, cmds)

/-- Initial component state: empty tracking, free-roam off. -/
def MapState.init : MapState :=
  { markerByName := [], markerInstances := [], freeRoamingMode := false,
    autoEnforcedFreeRoaming := false, nextId := 0 }

/-- `computeNextDelayMs` from `MapComponent.vue`.  `parseMs` abstracts
`parseISO(ts).getTime()` of date-fns; `now` is `Date.now()`.  Returns
1000 when any tracked marker is younger than 60 s, otherwise the time to
the next minute boundary floored at 500 ms. -/
def computeNextDelayMs (parseMs : String → Int) (now : Int)
    (markerInstances : List TrackedMarker) : Int :=
  if markerInstances.any (fun it => decide (now - parseMs it.timestamp < 60000)) then
    1000
  else
    max 500 (60000 - now % 60000)

/-- Observable adapter actions emitted by the update controller: the three
stop effects (`clearInterval`, `ws.close()`, `clearTimeout` of the
reconnect timer) and the start effects (initial fetches, `setInterval`,
`new WebSocket`). -/
inductive Action where
  | clearPollTimer
  | closeSocket
  | clearReconnect
  | fetchAll
  | fetchByName (n : String)
  | armPollTimer
  | openSocket
deriving Repr, DecidableEq

/-- Whether an action stops a running adapter resource. -/
def Action.isStop : Action → Bool
  | .clearPollTimer => true
  | .closeSocket => true
  | .clearReconnect => true
  | _ => false

/-- A trace is stop-then-start when it splits into a stop part followed by
a start part. -/
def stopsThenStarts (l : List Action) : Prop :=
  ∃ xs ys, l = xs ++ ys ∧ (∀ a ∈ xs, a.isStop = true) ∧ (∀ a ∈ ys, a.isStop = false)

/-- The module-level mutable state of the update controller in
`markerService.ts`: the mode and filter, the tracked `fetchInterval` and
`ws` references, the live `setInterval` timers and open sockets they refer
to (tracked separately so that leaked duplicates would be visible), the
pending reconnect timer with its delay, the intentional-close flag, and a
counter supplying fresh timer/socket ids. -/
structure CtrlState where
  updateMode : UpdateMode
  currentName : Option String
  fetchInterval : Option Nat
  pollTimers : List Nat
  ws : Option Nat
  sockets : List Nat
  wsReconnectTimer : Option Nat
  wsIntentionallyClosed : Bool
  nextId : Nat
deriving Repr, DecidableEq

/-- Initial module state: `updateMode` defaults to `Live`, nothing
running. -/
def CtrlState.init : CtrlState :=
  { updateMode := UpdateMode.Live, currentName := none, fetchInterval := none,
    pollTimers := [], ws := none, sockets := [], wsReconnectTimer := none,
    wsIntentionallyClosed := false, nextId := 0 }

/-- `stopFetching`: clears the tracked interval if one is set; idempotent
otherwise. -/
def stopFetching (st : CtrlState) : CtrlState × List Action :=
  match st.fetchInterval with
  | some t =>
      ({ st with pollTimers := st.pollTimers.erase t, fetchInterval := none },
       [Action.clearPollTimer])
  | none => (st, [])

/-- `stopLive`: cancels a pending reconnect timer, then marks the closure
intentional and closes the socket if one is open. -/
def stopLive (st : CtrlState) : CtrlState × List Action :=
  let r1 :=
    match st.wsReconnectTimer with
    | some _ => ({ st with wsReconnectTimer := none }, [Action.clearReconnect])
    | none => (st, ([] : List Action))
  match r1.1.ws with
  | some s =>
      ({ r1.1 with wsIntentionallyClosed := true, sockets := r1.1.sockets.erase s,
                   ws := none },
       r1.2 ++ [Action.closeSocket])
  | none => r1

/-- `stopUpdates`: `stopFetching` then `stopLive`. -/
def stopUpdates (st : CtrlState) : CtrlState × List Action :=
  let r1 := stopFetching st
  let r2 := stopLive r1.1
  (r2.1, r1.2 ++ r2.2)

/-- `connectWs`: closes any existing socket (marking the closure
intentional), clears a pending reconnect timer, resets the intentional
flag and opens a fresh socket. -/
def connectWs (st : CtrlState) : CtrlState × List Action :=
  let r1 :=
    match st.ws with
    | some s =>
        ({ st with wsIntentionallyClosed := true, sockets := st.sockets.erase s, ws := none },
         [Action.closeSocket])
    | none => (st, ([] : List Action))
  let r2 :=
    match r1.1.wsReconnectTimer with
    | some _ => ({ r1.1 with wsReconnectTimer := none }, [Action.clearReconnect])
    | none => (r1.1, ([] : List Action))
  ({ r2.1 with wsIntentionallyClosed := false, ws := some r2.1.nextId,
               sockets := r2.1.sockets ++ [r2.1.nextId], nextId := r2.1.nextId + 1 },
   r1.2 ++ r2.2 ++ [Action.openSocket])

/-- `startLive`: clears the filter then connects the all-users feed. -/
def startLive (st : CtrlState) : CtrlState × List Action :=
  connectWs { st with currentName := none }

/-- `startLiveByName`: sets the filter then connects the name-scoped
feed. -/
def startLiveByName (n : String) (st : CtrlState) : CtrlState × List Action :=
  connectWs { st with currentName := some n }

/-- `startFetching`: stops any previous interval, performs the initial
all-markers fetch, then arms a fresh repeating timer.  The source
suspends at `await fetchMarkerData()` between the stop and the
`setInterval`; this definition is the run-to-completion composition of
those two halves, which are modelled separately by `beginPollStart` and
`armPending` in the refined machine `stepA`. -/
def startFetching (st : CtrlState) : CtrlState × List Action :=
  let r := stopFetching st
  ({ r.1 with pollTimers := r.1.pollTimers ++ [r.1.nextId],
              fetchInterval := some r.1.nextId, nextId := r.1.nextId + 1 },
   r.2 ++ [Action.fetchAll, Action.armPollTimer])

/-- `startFetchingByName`: stops any previous interval, performs the
initial named fetch (which sets `currentName`), then arms a fresh
repeating timer.  Like `startFetching`, the source suspends at
`await fetchMarkerByName(name)` before arming; the suspension is modelled
in the refined machine `stepA`. -/
def startFetchingByName (n : String) (st : CtrlState) : CtrlState × List Action :=
  let r := stopFetching st
  ({ r.1 with currentName := some n,
              pollTimers := r.1.pollTimers ++ [r.1.nextId],
              fetchInterval := some r.1.nextId, nextId := r.1.nextId + 1 },
   r.2 ++ [Action.fetchByName n, Action.armPollTimer])

/-- Events driving the update controller: the `watch(props.name)` handler,
`setUpdateMode` plus its `watch(updateMode)` handler, `setUpdateFrequency`
while active, the socket's `onclose` callback, the reconnect timer firing,
and component unmount. -/
inductive CtrlEvent where
  | nameChange (newName : Option String)
  | modeChange (m : UpdateMode)
  | freqChange
  | wsClose
  | reconnectFire
  | unmount
deriving Repr, DecidableEq

/-- One event of the update controller, combining `markerService.ts` and
the watchers of `MapComponent.vue` into a single step function.  Each
handler is run to completion here, so a poll start's awaited initial
fetch is taken to resolve before the next event: `step` is the
immediate-resume projection of the refined machine `stepA`
(`step_eq_immediate_resume`), which exposes the suspension window. -/
def step (e : CtrlEvent) (st : CtrlState) : CtrlState × List Action :=
  match e with
  | .nameChange nn =>
      let r := stopUpdates st
      let r2 :=
        match nn with
        | some n =>
            if r.1.updateMode = UpdateMode.Live then startLiveByName n r.1
            else startFetchingByName n r.1
        | none =>
            if r.1.updateMode = UpdateMode.Live then startLive r.1
            else startFetching r.1
      (r2.1, r.2 ++ r2.2)
  | .modeChange m =>
      let r := stopUpdates { st with updateMode := m }
      let r2 :=
        match r.1.currentName with
        | some n =>
            if m = UpdateMode.Live then startLiveByName n r.1
            else startFetchingByName n r.1
        | none =>
            if m = UpdateMode.Live then startLive r.1
            else startFetching r.1
      (r2.1, r.2 ++ r2.2)
  | .freqChange =>
      if st.fetchInterval.isSome then
        match st.currentName with
        | some n => startFetchingByName n st
        | none => startFetching st
      else (st, [])
  | .wsClose =>
      match st.ws with
      | some s =>
          let st1 := { st with ws := none, sockets := st.sockets.erase s }
          if st1.wsIntentionallyClosed = false ∧ st1.updateMode = UpdateMode.Live then
            ({ st1 with wsReconnectTimer := some 1000 }, [])
          else (st1, [])
      | none => (st, [])
  | .reconnectFire =>
      match st.wsReconnectTimer with
      | some _ => connectWs { st with wsReconnectTimer := none }
      | none => (st, [])
  | .unmount => stopUpdates st

/-- Well-formedness of the controller state: the tracked references agree
with the live resources, at most one data source is active, and a pending
reconnect timer can only coexist with `Live` mode and no poll timer. -/
def CtrlWF (st : CtrlState) : Prop :=
  st.pollTimers = st.fetchInterval.toList ∧
  st.sockets = st.ws.toList ∧
  ¬(st.fetchInterval.isSome ∧ st.ws.isSome) ∧
  ¬(st.fetchInterval.isSome ∧ st.wsReconnectTimer.isSome) ∧
  (st.wsReconnectTimer.isSome → st.updateMode = UpdateMode.Live)

instance (st : CtrlState) : Decidable (CtrlWF st) := by
  unfold CtrlWF; infer_instance

/-- A demo marker used to instantiate theorems on concrete inputs. -/
def demoMarker : MarkerData :=
  { name := "alice", latitude := JNum.num 59, longitude := JNum.num 18,
    timestamp := "2024-01-01T00:00:00Z" }

/-- A second demo marker with a different name. -/
def demoMarkerB : MarkerData :=
  { name := "bob", latitude := JNum.num 60, longitude := JNum.num 19,
    timestamp := "2024-01-01T00:01:00Z" }

/-- A record that parses as JSON but carries a non-numeric latitude and a
missing longitude. -/
def badRecord : MarkerData :=
  { name := "x", latitude := JNum.str "oops", longitude := JNum.missing,
    timestamp := "2024-01-01T00:00:00Z" }

/-- A component state with one rendered handle and free-roam off, as left
by a previous reconciliation pass. -/
def oneMarkerState : MapState :=
  { markerByName := [("alice", ⟨0, "alice", JNum.num 59, JNum.num 18, "2024-01-01T00:00:00Z"⟩)],
    markerInstances := [⟨0, "alice", JNum.num 59, JNum.num 18, "2024-01-01T00:00:00Z"⟩],
    freeRoamingMode := false, autoEnforcedFreeRoaming := false, nextId := 1 }

/-- `L.latLng` of the Leaflet boundary: constructing a position from a
non-numeric or missing coordinate throws (`Invalid LatLng object`),
modelled as `Except.error`. -/
def latLng (lat lng : JNum) : Except String (Int × Int) :=
  match lat, lng with
  | JNum.num a, JNum.num b => Except.ok (a, b)
  | _, _ => Except.error "Invalid LatLng object"

/-- The upsert loop of `updateMapMarkers` with the throwing Leaflet
boundary: `L.latLng` is evaluated for each record before any map mutation
for that record, so the loop aborts at the first record with malformed
coordinates, keeping the mutations already performed for earlier
records. -/
def upsertAllThrow (snapshot : List MarkerData) (assoc : List (String × TrackedMarker))
    (nextId : Nat) :
    Except (List (String × TrackedMarker) × Nat) (List (String × TrackedMarker) × Nat) :=
  match snapshot with
  | [] => Except.ok (assoc, nextId)
  | m :: ms =>
      match latLng m.latitude m.longitude with
      | Except.error _ => Except.error (assoc, nextId)
      | Except.ok _ =>
          let r := upsertTracked m assoc nextId
          upsertAllThrow ms r.1 r.2

/-- `updateMapMarkers` with the throwing Leaflet boundary: the
`watch(markers)` callback has no try/catch, so a snapshot containing a
record with non-numeric or missing coordinates makes the pass throw
uncaught at that record's `L.latLng` call (`Except.error` carries the
state at the throw: the tracking map after the records already upserted,
with the stale-handle removal, `markerInstances` rebuild and view fitting
all skipped).  On snapshots of well-formed records it agrees with
`updateMapMarkers` (`updateMapMarkersThrow_eq_of_wellFormed`). -/
def updateMapMarkersThrow (snapshot : List MarkerData) (zoom : ZoomLevel) (st : MapState) :
    Except MapState (MapState × List ViewCmd) :=
  if snapshot.length = 0 then
    Except.ok (updateMapMarkers snapshot zoom st)
  else
    let st1 : MapState :=
      if st.autoEnforcedFreeRoaming && st.freeRoamingMode then
        { st with freeRoamingMode := false, autoEnforcedFreeRoaming := false }
      else st
    match upsertAllThrow snapshot st1.markerByName st1.nextId with
    | Except.error r =>
        Except.error { st1 with markerByName := r.1, nextId := r.2 }
    | Except.ok r =>
        let assoc2 := r.1.filter (fun p => snapshot.any (fun m => m.name = p.1))
        let insts := assoc2.map Prod.snd
        let cmds : List ViewCmd :=
          if st1.freeRoamingMode = false then
            if snapshot.length = 1 then
              match snapshot.head? with
              | some single => [ViewCmd.setView single.latitude single.longitude zoom.toNat]
              | none => []
            else [ViewCmd.fitBounds]
          else []
        Except.ok
          ({ st1 with markerByName := assoc2, markerInstances := insts, nextId := r.2 },
           cmds)

/-- A poll start suspended at the `await` of its initial fetch:
`startFetching` suspends at `await fetchMarkerData()` and
`startFetchingByName` at `await fetchMarkerByName(name)`, both between
their synchronous `stopFetching()` and the `setInterval` that arms the
repeating timer. -/
inductive Pending where
  | armAll
  | armByName (n : String)
deriving Repr, DecidableEq

/-- Controller state refined with the suspended poll-start continuations:
between a start function's dispatch of its initial fetch and the arming
of its timer, the single-threaded runtime can interleave whole other
handlers. -/
structure AsyncState where
  ctrl : CtrlState
  pending : List Pending
deriving Repr, DecidableEq

/-- Initial refined state: initial module state, nothing suspended. -/
def AsyncState.init : AsyncState :=
  { ctrl := CtrlState.init, pending := [] }

/-- Events of the refined controller: the three transition handlers, each
running synchronously up to the awaited initial fetch of a poll start,
and the resolution of the `k`-th suspended fetch, which runs the
continuation arming the repeating interval. -/
inductive AsyncEvent where
  | nameChangeA (newName : Option String)
  | modeChangeA (m : UpdateMode)
  | freqChangeA
  | resume (k : Nat)
deriving Repr, DecidableEq

/-- Begin a poll start: `startFetching` / `startFetchingByName` run
`stopFetching()` synchronously, the named variant's `fetchMarkerByName`
sets `currentName` before its own await, the initial fetch is dispatched
and the function suspends. -/
def beginPollStart (p : Pending) (st : AsyncState) : AsyncState :=
  let c1 := (stopFetching st.ctrl).1
  let c2 :=
    match p with
    | Pending.armAll => c1
    | Pending.armByName n => { c1 with currentName := some n }
  { ctrl := c2, pending := st.pending ++ [p] }

/-- The continuation after the awaited initial fetch resolves:
`fetchInterval = setInterval(...)` arms a fresh repeating timer and
overwrites the tracked reference, with no re-check of the mode, the
filter, or whether another adapter was started meanwhile. -/
def armPending (c : CtrlState) : CtrlState :=
  { c with pollTimers := c.pollTimers ++ [c.nextId],
           fetchInterval := some c.nextId, nextId := c.nextId + 1 }

/-- One event of the refined controller.  The live paths are synchronous
(no await in `startLive` / `startLiveByName` / `connectWs`), so they
complete within their handler; the poll paths suspend.  `step` is the
projection of this machine in which every suspended fetch resolves before
the next transition (`step_eq_immediate_resume`). -/
def stepA (e : AsyncEvent) (st : AsyncState) : AsyncState :=
  match e with
  | AsyncEvent.nameChangeA nn =>
      let c1 := (stopUpdates st.ctrl).1
      match nn with
      | some n =>
          if c1.updateMode = UpdateMode.Live then
            { st with ctrl := (startLiveByName n c1).1 }
          else beginPollStart (Pending.armByName n) { st with ctrl := c1 }
      | none =>
          if c1.updateMode = UpdateMode.Live then
            { st with ctrl := (startLive c1).1 }
          else beginPollStart Pending.armAll { st with ctrl := c1 }
  | AsyncEvent.modeChangeA m =>
      let c1 := (stopUpdates { st.ctrl with updateMode := m }).1
      match c1.currentName with
      | some n =>
          if m = UpdateMode.Live then
            { st with ctrl := (startLiveByName n c1).1 }
          else beginPollStart (Pending.armByName n) { st with ctrl := c1 }
      | none =>
          if m = UpdateMode.Live then
            { st with ctrl := (startLive c1).1 }
          else beginPollStart Pending.armAll { st with ctrl := c1 }
  | AsyncEvent.freqChangeA =>
      if st.ctrl.fetchInterval.isSome then
        match st.ctrl.currentName with
        | some n => beginPollStart (Pending.armByName n) st
        | none => beginPollStart Pending.armAll st
      else st
  | AsyncEvent.resume k =>
      match st.pending.get? k with
      | some _ => { ctrl := armPending st.ctrl, pending := st.pending.eraseIdx k }
      | none => st

/-! ## Helper lemmas about the store operations -/

theorem processBatch_append (l1 l2 : List WsEvent) (st : ServiceState) :
    processBatch (l1 ++ l2) st = processBatch l2 (processBatch l1 st) := by
  induction l1 generalizing st with
  | nil => rfl
  | cons e es ih => simp [processBatch, ih]

theorem mem_name_upsertByName {y : String} (m : MarkerData) (xs : List MarkerData)
    (h : y ∈ (upsertByName m xs).map MarkerData.name) :
    y = m.name ∨ y ∈ xs.map MarkerData.name := by
  induction xs with
  | nil => simpa [upsertByName] using h
  | cons x xs ih =>
    by_cases hx : x.name = m.name
    · simp only [upsertByName, if_pos hx, List.map_cons, List.mem_cons] at h
      rcases h with h | h
      · exact Or.inl h
      · exact Or.inr (by simp [h])
    · simp only [upsertByName, if_neg hx, List.map_cons, List.mem_cons] at h
      rcases h with h | h
      · exact Or.inr (by simp [h])
      · rcases ih h with h1 | h1
        · exact Or.inl h1
        · exact Or.inr (by simp [h1])

theorem nodup_upsertByName (m : MarkerData) (xs : List MarkerData)
    (h : (xs.map MarkerData.name).Nodup) :
    ((upsertByName m xs).map MarkerData.name).Nodup := by
  induction xs with
  | nil => simp [upsertByName]
  | cons x xs ih =>
    simp only [List.map_cons, List.nodup_cons] at h
    by_cases hx : x.name = m.name
    · simp only [upsertByName, if_pos hx, List.map_cons, List.nodup_cons]
      exact ⟨hx ▸ h.1, h.2⟩
    · simp only [upsertByName, if_neg hx, List.map_cons, List.nodup_cons]
      refine ⟨fun hmem => ?_, ih h.2⟩
      rcases mem_name_upsertByName m xs hmem with h1 | h1
      · exact hx h1
      · exact h.1 h1

/-! ## Claims about the marker store -/

/-- C3: on any failure of the all-markers fetch the previous marker set is
preserved, while any failure of the single-name lookup clears the marker
set to `[]`; in both paths a human-readable error message is set and the
loading flag is cleared, with the distinct not-found message on a 404 of
the named lookup. -/
theorem fetch_failure_asymmetry (st : ServiceState) (status : Nat) (msg n : String) :
    ((fetchMarkerData (.httpError status) st).markers = st.markers ∧
     (fetchMarkerData (.httpError status) st).error =
       some ("API request failed with status " ++ toString status) ∧
     (fetchMarkerData (.httpError status) st).isLoading = false) ∧
    ((fetchMarkerData (.networkError msg) st).markers = st.markers ∧
     (fetchMarkerData (.networkError msg) st).error = some msg ∧
     (fetchMarkerData (.networkError msg) st).isLoading = false) ∧
    ((fetchMarkerByName n (.httpError status) st).markers = [] ∧
     (fetchMarkerByName n (.httpError status) st).error.isSome = true ∧
     (fetchMarkerByName n (.httpError status) st).isLoading = false) ∧
    ((fetchMarkerByName n (.networkError msg) st).markers = [] ∧
     (fetchMarkerByName n (.networkError msg) st).error = some msg ∧
     (fetchMarkerByName n (.networkError msg) st).isLoading = false) ∧
    (fetchMarkerByName n (.httpError 404) st).error =
      some ("No user named \"" ++ n ++ "\" known...") := by
  refine ⟨⟨rfl, rfl, rfl⟩, ⟨rfl, rfl, rfl⟩, ⟨rfl, rfl, rfl⟩, ⟨rfl, rfl, rfl⟩, ?_⟩
  simp [fetchMarkerByName]

/-- C10: with a single-entity filter active, every inbound live record
replaces the whole visible set with exactly that record, with no check
that its name matches `currentName`. -/
theorem live_byname_replaces_without_name_check (st : ServiceState) (m : MarkerData)
    (n : String) (h : st.currentName = some n) :
    (applyMarkerUpdate m st).markers = [m] := by
  simp [applyMarkerUpdate, h]

/-- C10 witness: a pushed record for `bob` becomes the sole visible marker
while the filter is `alice`. -/
theorem live_byname_replaces_without_name_check_witness :
    ({ ServiceState.init with currentName := some "alice" } : ServiceState).currentName =
        some "alice" ∧
      demoMarkerB.name ≠ "alice" ∧
      (applyMarkerUpdate demoMarkerB
          { ServiceState.init with currentName := some "alice" }).markers = [demoMarkerB] :=
  ⟨rfl, by decide,
    live_byname_replaces_without_name_check
      { ServiceState.init with currentName := some "alice" } demoMarkerB "alice" rfl⟩

/-- C9: name uniqueness is preserved by every mutation of the marker set,
assuming server snapshots carry pairwise-distinct names: the live upsert
for the `All` filter, the replace-one for `ByName`, the snapshot
assignment of `fetchMarkerData`, and both body shapes of
`fetchMarkerByName`. -/
theorem marker_name_uniqueness (st : ServiceState) (m : MarkerData)
    (data l : List MarkerData) (n : String)
    (hst : (st.markers.map MarkerData.name).Nodup)
    (hdata : (data.map MarkerData.name).Nodup)
    (hl : (l.map MarkerData.name).Nodup) :
    (((applyMarkerUpdate m st).markers.map MarkerData.name).Nodup) ∧
    (((fetchMarkerData (.ok data) st).markers.map MarkerData.name).Nodup) ∧
    (((fetchMarkerByName n (.ok (.arr l)) st).markers.map MarkerData.name).Nodup) ∧
    (((fetchMarkerByName n (.ok (.single m)) st).markers.map MarkerData.name).Nodup) := by
  refine ⟨?_, ?_, ?_, ?_⟩
  · cases h : st.currentName with
    | some x => simp [applyMarkerUpdate, h]
    | none => simpa [applyMarkerUpdate, h] using nodup_upsertByName m st.markers hst
  · simpa [fetchMarkerData] using hdata
  · simpa [fetchMarkerByName] using hl
  · simp [fetchMarkerByName]

/-- C9 witness: uniqueness preserved on a concrete store and snapshot. -/
theorem marker_name_uniqueness_witness :
    ((([demoMarker] : List MarkerData).map MarkerData.name).Nodup) ∧
      (((applyMarkerUpdate demoMarkerB
            { ServiceState.init with markers := [demoMarker] }).markers.map
          MarkerData.name).Nodup) :=
  ⟨by decide,
    (marker_name_uniqueness { ServiceState.init with markers := [demoMarker] } demoMarkerB
        [demoMarker] [demoMarker] "alice" (by decide) (by decide) (by decide)).1⟩

/-- C8: the adaptive delay is exactly 1000 ms when some rendered marker is
younger than 60 s, and otherwise the time to the next minute boundary
floored at 500 ms, which always lies between 500 and 60000 ms. -/
theorem adaptive_delay_rule (parseMs : String → Int) (now : Int)
    (insts : List TrackedMarker) (hnow : 0 ≤ now) :
    ((∃ it ∈ insts, now - parseMs it.timestamp < 60000) →
       computeNextDelayMs parseMs now insts = 1000) ∧
    ((∀ it ∈ insts, 60000 ≤ now - parseMs it.timestamp) →
       computeNextDelayMs parseMs now insts = max 500 (60000 - now % 60000) ∧
       500 ≤ computeNextDelayMs parseMs now insts ∧
       computeNextDelayMs parseMs now insts ≤ 60000) := by
  constructor
  · intro h
    have : insts.any (fun it => decide (now - parseMs it.timestamp < 60000)) = true := by
      rcases h with ⟨it, hmem, hlt⟩
      exact List.any_eq_true.mpr ⟨it, hmem, by simpa using hlt⟩
    simp [computeNextDelayMs, this]
  · intro h
    have hany : insts.any (fun it => decide (now - parseMs it.timestamp < 60000)) = false := by
      rw [List.any_eq_false]
      intro it hmem
      simpa using h it hmem
    have hmod0 : 0 ≤ now % 60000 := Int.emod_nonneg now (by norm_num)
    have hmodlt : now % 60000 < 60000 := Int.emod_lt_of_pos now (by norm_num)
    refine ⟨by simp [computeNextDelayMs, hany], ?_, ?_⟩
    · simp only [computeNextDelayMs, hany, Bool.false_eq_true, if_false]
      exact le_max_left _ _
    · simp only [computeNextDelayMs, hany, Bool.false_eq_true, if_false]
      have : (60000 : Int) - now % 60000 ≤ 60000 := by omega
      exact max_le (by norm_num) this

/-- C8 witness: with one marker aged 100 s at `now = 100000`, the delay is
the 20000 ms to the next minute boundary. -/
theorem adaptive_delay_rule_witness :
    computeNextDelayMs (fun _ => (0 : Int)) 100000
        [⟨0, "alice", JNum.num 59, JNum.num 18, "t"⟩] = 20000 :=
  ((adaptive_delay_rule (fun _ => (0 : Int)) 100000
      [⟨0, "alice", JNum.num 59, JNum.num 18, "t"⟩] (by norm_num)).2
    (by decide)).1.trans (by decide)

/-! ## Helper lemmas about reconciliation passes -/

theorem updateMapMarkers_nil_fst (z : ZoomLevel) (st : MapState) :
    (updateMapMarkers [] z st).1 =
      { st with markerByName := [], markerInstances := [], freeRoamingMode := true,
                autoEnforcedFreeRoaming :=
                  if st.freeRoamingMode then st.autoEnforcedFreeRoaming else true } := by
  cases h : st.freeRoamingMode <;> simp [updateMapMarkers, h]

theorem updateMapMarkers_nil_snd (z : ZoomLevel) (st : MapState) :
    (updateMapMarkers [] z st).2 = [] := by
  cases h : st.freeRoamingMode <;> simp [updateMapMarkers, h]

theorem updateMapMarkers_nonempty_flags (snap : List MarkerData) (z : ZoomLevel)
    (st : MapState) (h : snap ≠ []) :
    (updateMapMarkers snap z st).1.freeRoamingMode =
      (if st.autoEnforcedFreeRoaming && st.freeRoamingMode then false
       else st.freeRoamingMode) ∧
    (updateMapMarkers snap z st).1.autoEnforcedFreeRoaming =
      (if st.autoEnforcedFreeRoaming && st.freeRoamingMode then false
       else st.autoEnforcedFreeRoaming) := by
  have hlen : ¬ snap.length = 0 := by simpa using h
  unfold updateMapMarkers
  rw [if_neg hlen]
  cases hc : st.autoEnforcedFreeRoaming && st.freeRoamingMode <;> simp [hc]

theorem lookupName_eq_none_iff (n : String) (a : List (String × TrackedMarker)) :
    lookupName n a = none ↔ n ∉ a.map Prod.fst := by
  induction a with
  | nil => simp [lookupName]
  | cons p ps ih =>
    by_cases hp : p.1 = n
    · simp [lookupName, hp]
    · simp only [lookupName, if_neg hp, List.map_cons, List.mem_cons, not_or, ih]
      exact ⟨fun h => ⟨fun hh => hp hh.symm, h⟩, fun h => h.2⟩

theorem lookupName_append (n : String) (a b : List (String × TrackedMarker)) :
    lookupName n (a ++ b) =
      match lookupName n a with
      | some tm => some tm
      | none => lookupName n b := by
  induction a with
  | nil => simp [lookupName]
  | cons p ps ih =>
    by_cases hp : p.1 = n <;> simp [lookupName, hp, ih]

theorem lookupName_map_update (n : String) (m : MarkerData)
    (a : List (String × TrackedMarker)) (h : n ≠ m.name) :
    lookupName n (a.map (fun p =>
      if p.1 = m.name then
        (p.1, { p.2 with lat := m.latitude, lng := m.longitude, timestamp := m.timestamp })
      else p)) = lookupName n a := by
  have hnm : ¬ n = m.name := h
  have hmn : ¬ m.name = n := fun hh => h hh.symm
  induction a with
  | nil => simp [lookupName]
  | cons p ps ih =>
    by_cases hpm : p.1 = m.name
    · have hp : ¬ p.1 = n := fun hh => h (hh ▸ hpm)
      simp [lookupName, hpm, hp, ih, hnm, hmn]
    · by_cases hp : p.1 = n <;> simp [lookupName, hpm, hp, ih, hnm, hmn]

theorem lookupName_map_update_self (m : MarkerData)
    (a : List (String × TrackedMarker)) (tm : TrackedMarker)
    (h : lookupName m.name a = some tm) :
    lookupName m.name (a.map (fun p =>
      if p.1 = m.name then
        (p.1, { p.2 with lat := m.latitude, lng := m.longitude, timestamp := m.timestamp })
      else p)) =
      some { tm with lat := m.latitude, lng := m.longitude, timestamp := m.timestamp } := by
  induction a with
  | nil => simp [lookupName] at h
  | cons p ps ih =>
    by_cases hp : p.1 = m.name
    · simp only [lookupName, if_pos hp] at h
      have htm : p.2 = tm := Option.some_injective _ h
      simp [lookupName, hp, htm]
    · simp only [lookupName, if_neg hp] at h
      simp [lookupName, hp, ih h]

theorem lookupName_isSome_iff (n : String) (a : List (String × TrackedMarker)) :
    (lookupName n a).isSome = true ↔ n ∈ a.map Prod.fst := by
  rcases h : lookupName n a with _ | tm
  · simpa [h] using (lookupName_eq_none_iff n a).mp h
  · simp only [h, Option.isSome_some, true_iff]
    by_contra hmem
    rw [← lookupName_eq_none_iff n a] at hmem
    rw [h] at hmem
    exact Option.noConfusion hmem

theorem keys_upsertTracked (m : MarkerData) (a : List (String × TrackedMarker)) (k : Nat) :
    (upsertTracked m a k).1.map Prod.fst =
      if m.name ∈ a.map Prod.fst then a.map Prod.fst else a.map Prod.fst ++ [m.name] := by
  rcases h : lookupName m.name a with _ | tm
  · rw [if_neg ((lookupName_eq_none_iff m.name a).mp h)]
    simp [upsertTracked, h]
  · rw [if_pos ((lookupName_isSome_iff m.name a).mp (by simp [h]))]
    simp only [upsertTracked, h]
    rw [List.map_map]
    refine List.map_congr_left ?_
    intro p _
    by_cases hp : p.1 = m.name <;> simp [hp]

theorem nextId_upsertTracked (m : MarkerData) (a : List (String × TrackedMarker)) (k : Nat) :
    k ≤ (upsertTracked m a k).2 := by
  rcases h : lookupName m.name a with _ | tm <;> simp [upsertTracked, h]

theorem lookupName_upsertTracked_ne (n : String) (m : MarkerData)
    (a : List (String × TrackedMarker)) (k : Nat) (h : n ≠ m.name) :
    lookupName n (upsertTracked m a k).1 = lookupName n a := by
  rcases hl : lookupName m.name a with _ | tm
  · simp only [upsertTracked, hl]
    rw [lookupName_append]
    rcases h2 : lookupName n a with _ | tm2
    · have hm : ¬ m.name = n := fun hh => h hh.symm
      simp [lookupName, hm]
    · simp
  · simp only [upsertTracked, hl]
    exact lookupName_map_update n m a h

theorem lookupName_upsertTracked_self_new (m : MarkerData)
    (a : List (String × TrackedMarker)) (k : Nat) (h : lookupName m.name a = none) :
    lookupName m.name (upsertTracked m a k).1 =
      some ⟨k, m.name, m.latitude, m.longitude, m.timestamp⟩ := by
  simp only [upsertTracked, h]
  rw [lookupName_append, h]
  simp [lookupName]

theorem lookupName_upsertTracked_self_existing (m : MarkerData)
    (a : List (String × TrackedMarker)) (k : Nat) (tm : TrackedMarker)
    (h : lookupName m.name a = some tm) :
    lookupName m.name (upsertTracked m a k).1 =
      some { tm with lat := m.latitude, lng := m.longitude,
                     timestamp := m.timestamp } := by
  simp only [upsertTracked, h]
  exact lookupName_map_update_self m a tm h

theorem idBound_upsertTracked (m : MarkerData) (a : List (String × TrackedMarker)) (k : Nat)
    (h : ∀ p ∈ a, p.2.id < k) :
    ∀ p ∈ (upsertTracked m a k).1, p.2.id < (upsertTracked m a k).2 := by
  rcases hl : lookupName m.name a with _ | tm
  · simp only [upsertTracked, hl]
    intro p hp
    rcases List.mem_append.mp hp with hp1 | hp1
    · exact Nat.lt_succ_of_lt (h p hp1)
    · simp only [List.mem_singleton] at hp1
      subst hp1
      exact Nat.lt_succ_self k
  · simp only [upsertTracked, hl]
    intro p hp
    rcases List.mem_map.mp hp with ⟨q, hq, hqe⟩
    by_cases hqm : q.1 = m.name
    · rw [if_pos hqm] at hqe
      have := h q hq
      simpa [← hqe] using this
    · rw [if_neg hqm] at hqe
      exact hqe ▸ h q hq

theorem nodup_keys_upsertTracked (m : MarkerData) (a : List (String × TrackedMarker))
    (k : Nat) (h : (a.map Prod.fst).Nodup) :
    ((upsertTracked m a k).1.map Prod.fst).Nodup := by
  rw [keys_upsertTracked]
  by_cases hmem : m.name ∈ a.map Prod.fst
  · rwa [if_pos hmem]
  · rw [if_neg hmem, List.nodup_append]
    refine ⟨h, List.nodup_singleton _, ?_⟩
    intro x hx hx2
    rw [List.mem_singleton] at hx2
    subst hx2
    exact hmem hx

theorem keys_mem_upsertAll (s : List MarkerData) (a : List (String × TrackedMarker))
    (k : Nat) (n : String) :
    n ∈ (upsertAll s a k).1.map Prod.fst ↔
      n ∈ a.map Prod.fst ∨ n ∈ s.map MarkerData.name := by
  induction s generalizing a k with
  | nil => simp [upsertAll]
  | cons m ms ih =>
    simp only [upsertAll, ih, keys_upsertTracked, List.map_cons, List.mem_cons]
    by_cases hmem : m.name ∈ a.map Prod.fst
    · rw [if_pos hmem]
      constructor
      · rintro (h | h)
        · exact Or.inl h
        · exact Or.inr (Or.inr h)
      · rintro (h | h | h)
        · exact Or.inl h
        · exact Or.inl (h ▸ hmem)
        · exact Or.inr h
    · rw [if_neg hmem]
      simp only [List.mem_append, List.mem_singleton]
      tauto

theorem nodup_keys_upsertAll (s : List MarkerData) (a : List (String × TrackedMarker))
    (k : Nat) (h : (a.map Prod.fst).Nodup) :
    ((upsertAll s a k).1.map Prod.fst).Nodup := by
  induction s generalizing a k with
  | nil => simpa [upsertAll] using h
  | cons m ms ih => exact ih _ _ (nodup_keys_upsertTracked m a k h)

theorem nextId_upsertAll (s : List MarkerData) (a : List (String × TrackedMarker))
    (k : Nat) : k ≤ (upsertAll s a k).2 := by
  induction s generalizing a k with
  | nil => simp [upsertAll]
  | cons m ms ih => exact le_trans (nextId_upsertTracked m a k) (ih _ _)

theorem idBound_upsertAll (s : List MarkerData) (a : List (String × TrackedMarker))
    (k : Nat) (h : ∀ p ∈ a, p.2.id < k) :
    ∀ p ∈ (upsertAll s a k).1, p.2.id < (upsertAll s a k).2 := by
  induction s generalizing a k with
  | nil => simpa [upsertAll] using h
  | cons m ms ih => exact ih _ _ (idBound_upsertTracked m a k h)

theorem lookupName_upsertAll_existing (s : List MarkerData)
    (a : List (String × TrackedMarker)) (k : Nat) (n : String) (tm : TrackedMarker)
    (h : lookupName n a = some tm) :
    ∃ tm', lookupName n (upsertAll s a k).1 = some tm' ∧ tm'.id = tm.id := by
  induction s generalizing a k tm with
  | nil => exact ⟨tm, by simpa [upsertAll] using h, rfl⟩
  | cons m ms ih =>
    by_cases hm : n = m.name
    · subst hm
      have h2 := lookupName_upsertTracked_self_existing m a k tm h
      rcases ih _ (upsertTracked m a k).2 _ h2 with ⟨tm', htm', hid⟩
      exact ⟨tm', by simpa [upsertAll] using htm', by simp [hid]⟩
    · have h2 : lookupName n (upsertTracked m a k).1 = some tm :=
        (lookupName_upsertTracked_ne n m a k hm).symm ▸ h
      rcases ih _ (upsertTracked m a k).2 _ h2 with ⟨tm', htm', hid⟩
      exact ⟨tm', by simpa [upsertAll] using htm', hid⟩

theorem lookupName_upsertAll_new (s : List MarkerData)
    (a : List (String × TrackedMarker)) (k : Nat) (n : String)
    (hmem : n ∈ s.map MarkerData.name) (h : lookupName n a = none)
    (hb : ∀ p ∈ a, p.2.id < k) :
    ∃ tm', lookupName n (upsertAll s a k).1 = some tm' ∧ k ≤ tm'.id := by
  induction s generalizing a k with
  | nil => simp at hmem
  | cons m ms ih =>
    by_cases hm : n = m.name
    · subst hm
      have h2 := lookupName_upsertTracked_self_new m a k h
      rcases lookupName_upsertAll_existing ms (upsertTracked m a k).1
          (upsertTracked m a k).2 m.name
          ⟨k, m.name, m.latitude, m.longitude, m.timestamp⟩ h2 with ⟨tm', htm', hid⟩
      refine ⟨tm', by simpa [upsertAll] using htm', ?_⟩
      rw [hid]
    · simp only [List.map_cons, List.mem_cons] at hmem
      rcases hmem with hmem | hmem
      · exact absurd hmem hm
      · have h2 : lookupName n (upsertTracked m a k).1 = none :=
          (lookupName_upsertTracked_ne n m a k hm).symm ▸ h
        have hb2 := idBound_upsertTracked m a k hb
        rcases ih (upsertTracked m a k).1 (upsertTracked m a k).2 hmem h2 hb2 with
          ⟨tm', htm', hid⟩
        exact ⟨tm', by simpa [upsertAll] using htm',
          le_trans (nextId_upsertTracked m a k) hid⟩

theorem any_name_eq (snap : List MarkerData) (n : String) :
    snap.any (fun m => m.name = n) = true ↔ n ∈ snap.map MarkerData.name := by
  rw [List.any_eq_true]
  constructor
  · rintro ⟨m, hm, he⟩
    exact (of_decide_eq_true he) ▸ List.mem_map_of_mem _ hm
  · intro h
    rcases List.mem_map.mp h with ⟨m, hm, rfl⟩
    exact ⟨m, hm, decide_eq_true rfl⟩

theorem lookupName_filter_any (n : String) (snap : List MarkerData)
    (l : List (String × TrackedMarker)) :
    lookupName n (l.filter (fun p => snap.any (fun m => m.name = p.1))) =
      if snap.any (fun m => m.name = n) then lookupName n l else none := by
  induction l with
  | nil => cases hq : snap.any (fun m => m.name = n) <;> simp [lookupName, hq]
  | cons p ps ih =>
    by_cases hp : p.1 = n
    · subst hp
      cases hq : snap.any (fun m => m.name = p.1) <;> simp [lookupName, hq, ih]
    · cases hq : snap.any (fun m => m.name = p.1) <;>
        simp [lookupName, hq, hp, ih]

theorem keys_filter_any (snap : List MarkerData) (l : List (String × TrackedMarker))
    (n : String) :
    n ∈ (l.filter (fun p => snap.any (fun m => m.name = p.1))).map Prod.fst ↔
      n ∈ l.map Prod.fst ∧ n ∈ snap.map MarkerData.name := by
  constructor
  · intro h
    rcases List.mem_map.mp h with ⟨p, hp, rfl⟩
    have hf := List.mem_filter.mp hp
    refine ⟨List.mem_map_of_mem _ hf.1, ?_⟩
    exact (any_name_eq snap p.1).mp hf.2
  · rintro ⟨h1, h2⟩
    rcases List.mem_map.mp h1 with ⟨p, hp, rfl⟩
    exact List.mem_map_of_mem _
      (List.mem_filter.mpr ⟨hp, (any_name_eq snap p.1).mpr h2⟩)

theorem updateMapMarkers_nonempty_assoc (snap : List MarkerData) (z : ZoomLevel)
    (st : MapState) (h : snap ≠ []) :
    (updateMapMarkers snap z st).1.markerByName =
      ((upsertAll snap st.markerByName st.nextId).1.filter
        (fun p => snap.any (fun m => m.name = p.1))) ∧
    (updateMapMarkers snap z st).1.markerInstances =
      (updateMapMarkers snap z st).1.markerByName.map Prod.snd ∧
    (updateMapMarkers snap z st).1.nextId =
      (upsertAll snap st.markerByName st.nextId).2 := by
  have hlen : ¬ snap.length = 0 := by simpa using h
  unfold updateMapMarkers
  rw [if_neg hlen]
  cases hc : st.autoEnforcedFreeRoaming && st.freeRoamingMode <;> simp [hc]

/-! ## Helper lemmas about the throwing Leaflet boundary -/

theorem latLng_error_of_not_wellFormed (m : MarkerData) (h : m.wellFormed = false) :
    latLng m.latitude m.longitude = Except.error "Invalid LatLng object" := by
  rcases hlat : m.latitude with a | s | _ <;>
    rcases hlng : m.longitude with b | s2 | _ <;>
      simp_all [latLng, MarkerData.wellFormed, JNum.isNum]

theorem latLng_ok_of_wellFormed (m : MarkerData) (h : m.wellFormed = true) :
    ∃ v, latLng m.latitude m.longitude = Except.ok v := by
  rcases hlat : m.latitude with a | s | _ <;>
    rcases hlng : m.longitude with b | s2 | _ <;>
      simp_all [latLng, MarkerData.wellFormed, JNum.isNum]

theorem upsertAllThrow_eq_of_wellFormed (s : List MarkerData)
    (a : List (String × TrackedMarker)) (k : Nat)
    (h : ∀ m ∈ s, m.wellFormed = true) :
    upsertAllThrow s a k = Except.ok (upsertAll s a k) := by
  induction s generalizing a k with
  | nil => rfl
  | cons m ms ih =>
    obtain ⟨v, hv⟩ := latLng_ok_of_wellFormed m (h m (by simp))
    simp only [upsertAllThrow, hv, upsertAll]
    exact ih _ _ (fun x hx => h x (by simp [hx]))

theorem upsertAllThrow_append_bad (pre : List MarkerData) (m : MarkerData)
    (rest : List MarkerData) (a : List (String × TrackedMarker)) (k : Nat)
    (hpre : ∀ x ∈ pre, x.wellFormed = true) (hm : m.wellFormed = false) :
    upsertAllThrow (pre ++ m :: rest) a k = Except.error (upsertAll pre a k) := by
  induction pre generalizing a k with
  | nil =>
    simp only [List.nil_append, upsertAllThrow,
      latLng_error_of_not_wellFormed m hm, upsertAll]
  | cons x xs ih =>
    obtain ⟨v, hv⟩ := latLng_ok_of_wellFormed x (hpre x (by simp))
    simp only [List.cons_append, upsertAllThrow, hv, upsertAll]
    exact ih _ _ (fun y hy => hpre y (by simp [hy]))

theorem updateMapMarkersThrow_eq_of_wellFormed (snapshot : List MarkerData)
    (z : ZoomLevel) (st : MapState) (h : ∀ m ∈ snapshot, m.wellFormed = true) :
    updateMapMarkersThrow snapshot z st = Except.ok (updateMapMarkers snapshot z st) := by
  rcases eq_or_ne snapshot [] with rfl | hne
  · rfl
  · have hlen : ¬ snapshot.length = 0 := by simpa using hne
    unfold updateMapMarkersThrow updateMapMarkers
    rw [if_neg hlen, if_neg hlen]
    simp only [upsertAllThrow_eq_of_wellFormed _ _ _ h]

theorem updateMapMarkersThrow_bad (pre : List MarkerData) (m : MarkerData)
    (rest : List MarkerData) (z : ZoomLevel) (mst : MapState)
    (hpre : ∀ x ∈ pre, x.wellFormed = true) (hm : m.wellFormed = false) :
    ∃ mst', updateMapMarkersThrow (pre ++ m :: rest) z mst = Except.error mst' ∧
      mst'.markerByName = (upsertAll pre mst.markerByName mst.nextId).1 ∧
      mst'.markerInstances = mst.markerInstances := by
  have hlen : ¬ (pre ++ m :: rest).length = 0 := by simp
  unfold updateMapMarkersThrow
  rw [if_neg hlen]
  cases hb : mst.autoEnforcedFreeRoaming && mst.freeRoamingMode <;>
    · simp only [hb, Bool.false_eq_true, if_false, if_true,
        upsertAllThrow_append_bad pre m rest _ _ hpre hm]
      exact ⟨_, rfl, rfl, rfl⟩

/-- C5 counterexample: a record with a non-numeric latitude and a missing
longitude parses as JSON, so `ws.onmessage` applies it to the store
instead of dropping it; the reconciliation pass over the resulting
snapshot then throws uncaught at `L.latLng` (modelled by `Except.error`),
leaving the rendered handles exactly as they were — no handle exists for
the record, refuting both "never raises an uncaught exception" and
"dropped ... with the remaining records applied to the rendering
surface". -/
theorem malformed_record_not_dropped :
    badRecord.wellFormed = false ∧
    (processBatch [WsEvent.parsed badRecord] ServiceState.init).markers = [badRecord] ∧
    updateMapMarkersThrow [badRecord] ZoomLevel.Medium oneMarkerState =
      Except.error oneMarkerState ∧
    lookupName badRecord.name oneMarkerState.markerByName = none :=
  ⟨rfl, rfl, rfl, rfl⟩

/-- C5 amended: an inbound message that fails JSON parsing never raises an
uncaught exception and is dropped individually from its batch, with the
remaining messages still applied; a record that parses as JSON, however,
is applied to the store without coordinate validation, and the
reconciliation pass over a snapshot containing it throws uncaught from the
map library's coordinate constructor at the first malformed record: no
handle is rendered for that record and the rest of the pass (stale-handle
removal, `markerInstances` rebuild, view fitting) is skipped. -/
theorem parse_failure_dropped_from_batch (raw : String) (b1 b2 : List WsEvent)
    (st : ServiceState) (m : MarkerData) (z : ZoomLevel) (mst : MapState)
    (pre rest : List MarkerData) :
    processBatch (b1 ++ WsEvent.parseFail raw :: b2) st = processBatch (b1 ++ b2) st ∧
    wsOnMessage (WsEvent.parsed m) st = applyMarkerUpdate m st ∧
    ((∀ x ∈ pre, x.wellFormed = true) → m.wellFormed = false →
      ∃ mst', updateMapMarkersThrow (pre ++ m :: rest) z mst = Except.error mst' ∧
        mst'.markerInstances = mst.markerInstances ∧
        (m.name ∉ pre.map MarkerData.name →
          m.name ∉ mst.markerByName.map Prod.fst →
          lookupName m.name mst'.markerByName = none)) := by
  refine ⟨?_, rfl, ?_⟩
  · have h1 : processBatch (b1 ++ WsEvent.parseFail raw :: b2) st =
        processBatch (WsEvent.parseFail raw :: b2) (processBatch b1 st) :=
      processBatch_append b1 _ st
    have h2 : processBatch (b1 ++ b2) st = processBatch b2 (processBatch b1 st) :=
      processBatch_append b1 b2 st
    rw [h1, h2]
    rfl
  · intro hpre hm
    obtain ⟨mst', he, hby, hinst⟩ := updateMapMarkersThrow_bad pre m rest z mst hpre hm
    refine ⟨mst', he, hinst, ?_⟩
    intro hnp hnk
    rw [hby, lookupName_eq_none_iff, keys_mem_upsertAll]
    rintro (hmem | hmem)
    · exact hnk hmem
    · exact hnp hmem

/-- C5 witness: for the concrete malformed record, the pass over
`[badRecord]` aborts with the throw and no handle is rendered for it. -/
theorem parse_failure_dropped_from_batch_witness :
    ∃ mst', updateMapMarkersThrow ([] ++ badRecord :: []) ZoomLevel.Medium oneMarkerState =
        Except.error mst' ∧
      lookupName badRecord.name mst'.markerByName = none := by
  obtain ⟨mst', he, hinst, hlook⟩ :=
    (parse_failure_dropped_from_batch "x" [] [] ServiceState.init badRecord
        ZoomLevel.Medium oneMarkerState [] []).2.2 (by simp) rfl
  exact ⟨mst', he, hlook (by simp) (by decide)⟩

/-! ## Claims about reconciliation -/

/-- C2: an empty snapshot forces free-roam on (recording the forcing when
the user had it off); on return to a non-empty snapshot the `true` value
reverts to `false` exactly when it was auto-forced, so an independently
user-chosen `true` survives the empty episode. -/
theorem free_roam_autoforce (st : MapState) (snap : List MarkerData) (z : ZoomLevel) :
    (st.freeRoamingMode = false →
      (updateMapMarkers [] z st).1.freeRoamingMode = true ∧
      (updateMapMarkers [] z st).1.autoEnforcedFreeRoaming = true) ∧
    (st.freeRoamingMode = true →
      (updateMapMarkers [] z st).1.freeRoamingMode = true ∧
      (updateMapMarkers [] z st).1.autoEnforcedFreeRoaming = st.autoEnforcedFreeRoaming) ∧
    (snap ≠ [] → st.freeRoamingMode = true →
      ((updateMapMarkers snap z st).1.freeRoamingMode = false ↔
        st.autoEnforcedFreeRoaming = true)) ∧
    (st.freeRoamingMode = true → st.autoEnforcedFreeRoaming = false → snap ≠ [] →
      (updateMapMarkers snap z (updateMapMarkers [] z st).1).1.freeRoamingMode = true) ∧
    (st.freeRoamingMode = false → snap ≠ [] →
      (updateMapMarkers snap z (updateMapMarkers [] z st).1).1.freeRoamingMode = false) := by
  refine ⟨?_, ?_, ?_, ?_, ?_⟩
  · intro h
    rw [updateMapMarkers_nil_fst]
    simp [h]
  · intro h
    rw [updateMapMarkers_nil_fst]
    simp [h]
  · intro hsnap h
    rw [(updateMapMarkers_nonempty_flags snap z st hsnap).1, h]
    cases hae : st.autoEnforcedFreeRoaming <;> simp [hae]
  · intro h hae hsnap
    rw [(updateMapMarkers_nonempty_flags snap z _ hsnap).1, updateMapMarkers_nil_fst]
    simp [h, hae]
  · intro h hsnap
    rw [(updateMapMarkers_nonempty_flags snap z _ hsnap).1, updateMapMarkers_nil_fst]
    simp [h]

/-- C2 witness: from free-roam off, an empty snapshot forces it on, and a
following non-empty snapshot releases it. -/
theorem free_roam_autoforce_witness :
    ((updateMapMarkers [] ZoomLevel.Medium MapState.init).1.freeRoamingMode = true ∧
      (updateMapMarkers [] ZoomLevel.Medium
          MapState.init).1.autoEnforcedFreeRoaming = true) ∧
    (updateMapMarkers [demoMarker] ZoomLevel.Medium
        (updateMapMarkers [] ZoomLevel.Medium MapState.init).1).1.freeRoamingMode = false :=
  ⟨(free_roam_autoforce MapState.init [demoMarker] ZoomLevel.Medium).1 rfl,
    (free_roam_autoforce MapState.init [demoMarker] ZoomLevel.Medium).2.2.2.2 rfl
      (by decide)⟩

/-- C1: after every reconciliation pass the rendered handle keys are
exactly the snapshot's names, without duplicates; a name present before is
kept on the same handle (moved in place), a new name receives a handle
distinct from every previously rendered one, and the handle-id bound is
itself preserved, so the properties hold along every sequence of
snapshots. -/
theorem reconciliation_sync (snapshot : List MarkerData) (z : ZoomLevel) (st : MapState)
    (hkeys : (st.markerByName.map Prod.fst).Nodup)
    (hids : ∀ p ∈ st.markerByName, p.2.id < st.nextId) :
    (∀ n, n ∈ (updateMapMarkers snapshot z st).1.markerByName.map Prod.fst ↔
       n ∈ snapshot.map MarkerData.name) ∧
    ((updateMapMarkers snapshot z st).1.markerByName.map Prod.fst).Nodup ∧
    (∀ n tm, lookupName n st.markerByName = some tm →
       n ∈ snapshot.map MarkerData.name →
       ∃ tm', lookupName n (updateMapMarkers snapshot z st).1.markerByName = some tm' ∧
         tm'.id = tm.id) ∧
    (∀ n, n ∈ snapshot.map MarkerData.name → lookupName n st.markerByName = none →
       ∃ tm', lookupName n (updateMapMarkers snapshot z st).1.markerByName = some tm' ∧
         ∀ p ∈ st.markerByName, tm'.id ≠ p.2.id) ∧
    (∀ p ∈ (updateMapMarkers snapshot z st).1.markerByName,
       p.2.id < (updateMapMarkers snapshot z st).1.nextId) ∧
    (updateMapMarkers snapshot z st).1.markerInstances =
      (updateMapMarkers snapshot z st).1.markerByName.map Prod.snd := by
  rcases eq_or_ne snapshot [] with rfl | hne
  · rw [updateMapMarkers_nil_fst]
    simp [lookupName]
  · obtain ⟨hA, hI, hN⟩ := updateMapMarkers_nonempty_assoc snapshot z st hne
    refine ⟨?_, ?_, ?_, ?_, ?_, hI⟩
    · intro n
      rw [hA, keys_filter_any, keys_mem_upsertAll]
      constructor
      · exact fun h => h.2
      · exact fun h => ⟨Or.inr h, h⟩
    · rw [hA]
      exact ((List.filter_sublist _).map Prod.fst).nodup
        (nodup_keys_upsertAll snapshot st.markerByName st.nextId hkeys)
    · intro n tm h hmem
      rcases lookupName_upsertAll_existing snapshot st.markerByName st.nextId n tm h with
        ⟨tm', htm', hid⟩
      refine ⟨tm', ?_, hid⟩
      rw [hA, lookupName_filter_any, if_pos ((any_name_eq snapshot n).mpr hmem)]
      exact htm'
    · intro n hmem h
      rcases lookupName_upsertAll_new snapshot st.markerByName st.nextId n hmem h hids with
        ⟨tm', htm', hid⟩
      refine ⟨tm', ?_, ?_⟩
      · rw [hA, lookupName_filter_any, if_pos ((any_name_eq snapshot n).mpr hmem)]
        exact htm'
      · intro p hp
        exact Nat.ne_of_gt (lt_of_lt_of_le (hids p hp) hid)
    · intro p hp
      rw [hA] at hp
      rw [hN]
      exact idBound_upsertAll snapshot st.markerByName st.nextId hids p
        (List.mem_of_mem_filter hp)

/-- C1 witness: reconciling `[alice]` against a state with a rendered
`alice` handle and free slots keeps the key set at exactly the snapshot's
names. -/
theorem reconciliation_sync_witness :
    (("alice" ∈ (updateMapMarkers [demoMarker] ZoomLevel.Medium
        oneMarkerState).1.markerByName.map Prod.fst) ↔
      "alice" ∈ ([demoMarker] : List MarkerData).map MarkerData.name) ∧
    ((updateMapMarkers [demoMarker] ZoomLevel.Medium
        oneMarkerState).1.markerByName.map Prod.fst).Nodup :=
  ⟨((reconciliation_sync [demoMarker] ZoomLevel.Medium oneMarkerState (by decide)
      (by decide)).1) "alice",
    (reconciliation_sync [demoMarker] ZoomLevel.Medium oneMarkerState (by decide)
      (by decide)).2.1⟩

/-- C4 counterexample: a reconciliation pass with zero markers on a state
with one rendered handle and free-roam off removes the handle but emits no
view command at all — in particular not the default-location
`setView([62, 15], CountryFar)` the claim requires: free-roam has just
been forced on when the guard `!freeRoamingMode.value` is evaluated, so
the centering branch is unreachable. -/
theorem empty_pass_never_centers :
    (updateMapMarkers [] ZoomLevel.Medium oneMarkerState).1.markerByName = [] ∧
    (updateMapMarkers [] ZoomLevel.Medium oneMarkerState).2 = [] ∧
    ViewCmd.setView (JNum.num 62) (JNum.num 15) ZoomLevel.CountryFar.toNat ∉
      (updateMapMarkers [] ZoomLevel.Medium oneMarkerState).2 := by
  refine ⟨by decide, by decide, by decide⟩

/-- C4 amended: on every reconciliation pass with zero markers all
rendered handles are removed and free-roam is forced on, but no view
command is issued: the default-location centering is dead code. -/
theorem empty_pass_clears_handles (z : ZoomLevel) (st : MapState) :
    (updateMapMarkers [] z st).1.markerByName = [] ∧
    (updateMapMarkers [] z st).1.markerInstances = [] ∧
    (updateMapMarkers [] z st).1.freeRoamingMode = true ∧
    (updateMapMarkers [] z st).2 = [] := by
  rw [updateMapMarkers_nil_fst, updateMapMarkers_nil_snd]
  exact ⟨rfl, rfl, rfl, rfl⟩

/-! ## Helper lemmas about the update controller -/

theorem stopsThenStarts_of_stops_append (l1 l2 : List Action)
    (h1 : ∀ a ∈ l1, a.isStop = true) (h2 : stopsThenStarts l2) :
    stopsThenStarts (l1 ++ l2) := by
  rcases h2 with ⟨xs, ys, rfl, hxs, hys⟩
  refine ⟨l1 ++ xs, ys, by rw [List.append_assoc], ?_, hys⟩
  intro a ha
  rcases List.mem_append.mp ha with ha | ha
  · exact h1 a ha
  · exact hxs a ha

theorem stopsThenStarts_of_all_stops (l : List Action) (h : ∀ a ∈ l, a.isStop = true) :
    stopsThenStarts l :=
  ⟨l, [], by simp, h, by simp⟩

theorem stopUpdates_fields (st : CtrlState)
    (h1 : st.pollTimers = st.fetchInterval.toList)
    (h2 : st.sockets = st.ws.toList) :
    (stopUpdates st).1.fetchInterval = none ∧
    (stopUpdates st).1.pollTimers = [] ∧
    (stopUpdates st).1.ws = none ∧
    (stopUpdates st).1.sockets = [] ∧
    (stopUpdates st).1.wsReconnectTimer = none ∧
    (stopUpdates st).1.updateMode = st.updateMode ∧
    (stopUpdates st).1.currentName = st.currentName ∧
    (stopUpdates st).1.nextId = st.nextId ∧
    (∀ a ∈ (stopUpdates st).2, a.isStop = true) := by
  rcases hf : st.fetchInterval with _ | t <;>
    rcases hr : st.wsReconnectTimer with _ | d <;>
      rcases hw : st.ws with _ | s <;>
        simp [stopUpdates, stopFetching, stopLive, hf, hr, hw, h1, h2, Action.isStop]

theorem connectWs_fields (st : CtrlState) (h2 : st.sockets = st.ws.toList) :
    (connectWs st).1.fetchInterval = st.fetchInterval ∧
    (connectWs st).1.pollTimers = st.pollTimers ∧
    (∃ j, (connectWs st).1.ws = some j ∧ (connectWs st).1.sockets = [j]) ∧
    (connectWs st).1.wsReconnectTimer = none ∧
    (connectWs st).1.updateMode = st.updateMode ∧
    (connectWs st).1.currentName = st.currentName ∧
    stopsThenStarts (connectWs st).2 := by
  rcases hw : st.ws with _ | s <;> rcases hr : st.wsReconnectTimer with _ | d <;>
    refine ⟨by simp [connectWs, hw, hr], by simp [connectWs, hw, hr],
      ⟨st.nextId, by simp [connectWs, hw, hr], by simp [connectWs, hw, hr, h2]⟩,
      by simp [connectWs, hw, hr], by simp [connectWs, hw, hr],
      by simp [connectWs, hw, hr], ?_⟩
  · exact ⟨[], [Action.openSocket], by simp [connectWs, hw, hr], by simp,
      by simp [Action.isStop]⟩
  · exact ⟨[Action.clearReconnect], [Action.openSocket], by simp [connectWs, hw, hr],
      by simp [Action.isStop], by simp [Action.isStop]⟩
  · exact ⟨[Action.closeSocket], [Action.openSocket], by simp [connectWs, hw, hr],
      by simp [Action.isStop], by simp [Action.isStop]⟩
  · exact ⟨[Action.closeSocket, Action.clearReconnect], [Action.openSocket],
      by simp [connectWs, hw, hr], by simp [Action.isStop], by simp [Action.isStop]⟩

theorem startFetching_fields (st : CtrlState)
    (h1 : st.pollTimers = st.fetchInterval.toList) :
    (∃ j, (startFetching st).1.fetchInterval = some j ∧
      (startFetching st).1.pollTimers = [j]) ∧
    (startFetching st).1.ws = st.ws ∧
    (startFetching st).1.sockets = st.sockets ∧
    (startFetching st).1.wsReconnectTimer = st.wsReconnectTimer ∧
    (startFetching st).1.updateMode = st.updateMode ∧
    (startFetching st).1.currentName = st.currentName ∧
    stopsThenStarts (startFetching st).2 := by
  rcases hf : st.fetchInterval with _ | t
  · refine ⟨⟨st.nextId, by simp [startFetching, stopFetching, hf],
      by simp [startFetching, stopFetching, hf, h1]⟩,
      by simp [startFetching, stopFetching, hf], by simp [startFetching, stopFetching, hf],
      by simp [startFetching, stopFetching, hf], by simp [startFetching, stopFetching, hf],
      by simp [startFetching, stopFetching, hf], ?_⟩
    exact ⟨[], [Action.fetchAll, Action.armPollTimer],
      by simp [startFetching, stopFetching, hf], by simp, by simp [Action.isStop]⟩
  · refine ⟨⟨st.nextId, by simp [startFetching, stopFetching, hf],
      by simp [startFetching, stopFetching, hf, h1]⟩,
      by simp [startFetching, stopFetching, hf], by simp [startFetching, stopFetching, hf],
      by simp [startFetching, stopFetching, hf], by simp [startFetching, stopFetching, hf],
      by simp [startFetching, stopFetching, hf], ?_⟩
    exact ⟨[Action.clearPollTimer], [Action.fetchAll, Action.armPollTimer],
      by simp [startFetching, stopFetching, hf], by simp [Action.isStop],
      by simp [Action.isStop]⟩

theorem startFetchingByName_fields (n : String) (st : CtrlState)
    (h1 : st.pollTimers = st.fetchInterval.toList) :
    (∃ j, (startFetchingByName n st).1.fetchInterval = some j ∧
      (startFetchingByName n st).1.pollTimers = [j]) ∧
    (startFetchingByName n st).1.ws = st.ws ∧
    (startFetchingByName n st).1.sockets = st.sockets ∧
    (startFetchingByName n st).1.wsReconnectTimer = st.wsReconnectTimer ∧
    (startFetchingByName n st).1.updateMode = st.updateMode ∧
    (startFetchingByName n st).1.currentName = some n ∧
    stopsThenStarts (startFetchingByName n st).2 := by
  rcases hf : st.fetchInterval with _ | t
  · refine ⟨⟨st.nextId, by simp [startFetchingByName, stopFetching, hf],
      by simp [startFetchingByName, stopFetching, hf, h1]⟩,
      by simp [startFetchingByName, stopFetching, hf],
      by simp [startFetchingByName, stopFetching, hf],
      by simp [startFetchingByName, stopFetching, hf],
      by simp [startFetchingByName, stopFetching, hf],
      by simp [startFetchingByName, stopFetching, hf], ?_⟩
    exact ⟨[], [Action.fetchByName n, Action.armPollTimer],
      by simp [startFetchingByName, stopFetching, hf], by simp, by simp [Action.isStop]⟩
  · refine ⟨⟨st.nextId, by simp [startFetchingByName, stopFetching, hf],
      by simp [startFetchingByName, stopFetching, hf, h1]⟩,
      by simp [startFetchingByName, stopFetching, hf],
      by simp [startFetchingByName, stopFetching, hf],
      by simp [startFetchingByName, stopFetching, hf],
      by simp [startFetchingByName, stopFetching, hf],
      by simp [startFetchingByName, stopFetching, hf], ?_⟩
    exact ⟨[Action.clearPollTimer], [Action.fetchByName n, Action.armPollTimer],
      by simp [startFetchingByName, stopFetching, hf], by simp [Action.isStop],
      by simp [Action.isStop]⟩

theorem stopsThenStarts_nil : stopsThenStarts [] :=
  ⟨[], [], rfl, by simp, by simp⟩

theorem connectWs_ok (st : CtrlState) (hfi : st.fetchInterval = none)
    (hpt : st.pollTimers = []) (hsync : st.sockets = st.ws.toList) :
    CtrlWF (connectWs st).1 ∧ stopsThenStarts (connectWs st).2 := by
  obtain ⟨c1, c2, ⟨j, cj, cs⟩, c4, c5, c6, c7⟩ := connectWs_fields st hsync
  refine ⟨⟨?_, ?_, ?_, ?_, ?_⟩, c7⟩
  · rw [c1, c2, hfi, hpt]; rfl
  · rw [cj, cs]; rfl
  · rw [c1, hfi]; simp
  · rw [c1, hfi]; simp
  · rw [c4]; simp

theorem startFetching_ok (st : CtrlState)
    (h1 : st.pollTimers = st.fetchInterval.toList) (hws : st.ws = none)
    (hsk : st.sockets = []) (hrt : st.wsReconnectTimer = none) :
    CtrlWF (startFetching st).1 ∧ stopsThenStarts (startFetching st).2 := by
  obtain ⟨⟨j, cj, cp⟩, c2, c3, c4, c5, c6, c7⟩ := startFetching_fields st h1
  refine ⟨⟨?_, ?_, ?_, ?_, ?_⟩, c7⟩
  · rw [cj, cp]; rfl
  · rw [c2, c3, hws, hsk]; rfl
  · rw [c2, hws]; simp
  · rw [c4, hrt]; simp
  · rw [c4, hrt]; simp

theorem startFetchingByName_ok (n : String) (st : CtrlState)
    (h1 : st.pollTimers = st.fetchInterval.toList) (hws : st.ws = none)
    (hsk : st.sockets = []) (hrt : st.wsReconnectTimer = none) :
    CtrlWF (startFetchingByName n st).1 ∧ stopsThenStarts (startFetchingByName n st).2 := by
  obtain ⟨⟨j, cj, cp⟩, c2, c3, c4, c5, c6, c7⟩ := startFetchingByName_fields n st h1
  refine ⟨⟨?_, ?_, ?_, ?_, ?_⟩, c7⟩
  · rw [cj, cp]; rfl
  · rw [c2, c3, hws, hsk]; rfl
  · rw [c2, hws]; simp
  · rw [c4, hrt]; simp
  · rw [c4, hrt]; simp

theorem step_spec (e : CtrlEvent) (st : CtrlState) (h : CtrlWF st) :
    CtrlWF (step e st).1 ∧ stopsThenStarts (step e st).2 := by
  obtain ⟨h1, h2, h3, h4, h5⟩ := h
  cases e with
  | nameChange nn =>
    obtain ⟨hfi, hpt, hws, hsk, hrt, hum, hcn, hni, hstops⟩ := stopUpdates_fields st h1 h2
    cases nn with
    | some n =>
      simp only [step, startLiveByName]
      by_cases hm : (stopUpdates st).1.updateMode = UpdateMode.Live
      · rw [if_pos hm]
        have hok := connectWs_ok { (stopUpdates st).1 with currentName := some n }
          hfi hpt (by rw [hsk, hws]; rfl)
        exact ⟨hok.1, stopsThenStarts_of_stops_append _ _ hstops hok.2⟩
      · rw [if_neg hm]
        have hok := startFetchingByName_ok n (stopUpdates st).1
          (by rw [hpt, hfi]; rfl) hws hsk hrt
        exact ⟨hok.1, stopsThenStarts_of_stops_append _ _ hstops hok.2⟩
    | none =>
      simp only [step, startLive]
      by_cases hm : (stopUpdates st).1.updateMode = UpdateMode.Live
      · rw [if_pos hm]
        have hok := connectWs_ok { (stopUpdates st).1 with currentName := none }
          hfi hpt (by rw [hsk, hws]; rfl)
        exact ⟨hok.1, stopsThenStarts_of_stops_append _ _ hstops hok.2⟩
      · rw [if_neg hm]
        have hok := startFetching_ok (stopUpdates st).1
          (by rw [hpt, hfi]; rfl) hws hsk hrt
        exact ⟨hok.1, stopsThenStarts_of_stops_append _ _ hstops hok.2⟩
  | modeChange m =>
    obtain ⟨hfi, hpt, hws, hsk, hrt, hum, hcn, hni, hstops⟩ :=
      stopUpdates_fields { st with updateMode := m } h1 h2
    rcases hc : (stopUpdates { st with updateMode := m }).1.currentName with _ | n
    · simp only [step, startLive, startLiveByName, hc]
      by_cases hm : m = UpdateMode.Live
      · rw [if_pos hm]
        have hok := connectWs_ok
          { (stopUpdates { st with updateMode := m }).1 with currentName := none }
          hfi hpt (by rw [hsk, hws]; rfl)
        exact ⟨hok.1, stopsThenStarts_of_stops_append _ _ hstops hok.2⟩
      · rw [if_neg hm]
        have hok := startFetching_ok (stopUpdates { st with updateMode := m }).1
          (by rw [hpt, hfi]; rfl) hws hsk hrt
        exact ⟨hok.1, stopsThenStarts_of_stops_append _ _ hstops hok.2⟩
    · simp only [step, startLive, startLiveByName, hc]
      by_cases hm : m = UpdateMode.Live
      · rw [if_pos hm]
        have hok := connectWs_ok
          { (stopUpdates { st with updateMode := m }).1 with currentName := some n }
          hfi hpt (by rw [hsk, hws]; rfl)
        exact ⟨hok.1, stopsThenStarts_of_stops_append _ _ hstops hok.2⟩
      · rw [if_neg hm]
        have hok := startFetchingByName_ok n (stopUpdates { st with updateMode := m }).1
          (by rw [hpt, hfi]; rfl) hws hsk hrt
        exact ⟨hok.1, stopsThenStarts_of_stops_append _ _ hstops hok.2⟩
  | freqChange =>
    rcases hf : st.fetchInterval with _ | t
    · simp only [step, hf, Option.isSome_none, Bool.false_eq_true, if_false]
      exact ⟨⟨h1, h2, h3, h4, h5⟩, stopsThenStarts_nil⟩
    · have hwsn : st.ws = none := by
        rcases hw : st.ws with _ | s
        · rfl
        · exact absurd ⟨by simp [hf], by simp [hw]⟩ h3
      have hrtn : st.wsReconnectTimer = none := by
        rcases hr : st.wsReconnectTimer with _ | d
        · rfl
        · exact absurd ⟨by simp [hf], by simp [hr]⟩ h4
      have hskn : st.sockets = [] := by rw [h2, hwsn]; rfl
      rcases hc : st.currentName with _ | n
      · simp only [step, hf, hc, Option.isSome_some, if_true]
        exact startFetching_ok st h1 hwsn hskn hrtn
      · simp only [step, hf, hc, Option.isSome_some, if_true]
        exact startFetchingByName_ok n st h1 hwsn hskn hrtn
  | wsClose =>
    rcases hw : st.ws with _ | s
    · simp only [step, hw]
      exact ⟨⟨h1, h2, h3, h4, h5⟩, stopsThenStarts_nil⟩
    · have hfin : st.fetchInterval = none := by
        rcases hfo : st.fetchInterval with _ | t
        · rfl
        · exact absurd ⟨by simp [hfo], by simp [hw]⟩ h3
      have hsk : st.sockets.erase s = [] := by rw [h2, hw]; simp
      simp only [step, hw]
      by_cases hcond : st.wsIntentionallyClosed = false ∧ st.updateMode = UpdateMode.Live
      · rw [if_pos hcond]
        refine ⟨⟨?_, ?_, ?_, ?_, ?_⟩, stopsThenStarts_nil⟩
        · simpa [hfin] using h1
        · simpa using hsk
        · simp [hfin]
        · simp [hfin]
        · intro _; exact hcond.2
      · rw [if_neg hcond]
        refine ⟨⟨?_, ?_, ?_, ?_, ?_⟩, stopsThenStarts_nil⟩
        · simpa [hfin] using h1
        · simpa using hsk
        · simp [hfin]
        · simp [hfin]
        · exact h5
  | reconnectFire =>
    rcases hr : st.wsReconnectTimer with _ | d
    · simp only [step, hr]
      exact ⟨⟨h1, h2, h3, h4, h5⟩, stopsThenStarts_nil⟩
    · have hfin : st.fetchInterval = none := by
        rcases hfo : st.fetchInterval with _ | t
        · rfl
        · exact absurd ⟨by simp [hfo], by simp [hr]⟩ h4
      simp only [step, hr]
      exact connectWs_ok { st with wsReconnectTimer := none } hfin
        (by rw [h1, hfin]; rfl) h2
  | unmount =>
    obtain ⟨hfi, hpt, hws, hsk, hrt, hum, hcn, hni, hstops⟩ := stopUpdates_fields st h1 h2
    simp only [step]
    refine ⟨⟨?_, ?_, ?_, ?_, ?_⟩, stopsThenStarts_of_all_stops _ hstops⟩
    · rw [hfi, hpt]; rfl
    · rw [hws, hsk]; rfl
    · rw [hfi]; simp
    · rw [hfi]; simp
    · rw [hrt]; simp

theorem openSocket_mem_connectWs (st : CtrlState) :
    Action.openSocket ∈ (connectWs st).2 := by
  rcases hw : st.ws with _ | s <;> rcases hr : st.wsReconnectTimer with _ | d <;>
    simp [connectWs, hw, hr]

/-! ## Claims about the update controller -/

/-- Under the immediate-resume projection `step` (every awaited initial
fetch resolves before the next transition), each transition first fully
stops the running adapters and only then starts the new one:
well-formedness is preserved from the initial state, at most one poll
timer and at most one socket exist, never one of each together, and every
emitted action trace is a block of stop effects followed by a block of
start effects.  The async refinement `stepA` shows this fails once
transitions interleave into the await window
(`overlapping_adapters_after_await`). -/
theorem controller_stop_before_start (e : CtrlEvent) (st : CtrlState) (h : CtrlWF st) :
    CtrlWF (step e st).1 ∧
    (step e st).1.pollTimers.length ≤ 1 ∧
    (step e st).1.sockets.length ≤ 1 ∧
    ¬((step e st).1.pollTimers ≠ [] ∧ (step e st).1.sockets ≠ []) ∧
    stopsThenStarts (step e st).2 ∧
    CtrlWF CtrlState.init := by
  obtain ⟨hwf, hss⟩ := step_spec e st h
  obtain ⟨w1, w2, w3, w4, w5⟩ := hwf
  refine ⟨⟨w1, w2, w3, w4, w5⟩, ?_, ?_, ?_, hss, by decide⟩
  · rw [w1]; cases (step e st).1.fetchInterval <;> simp
  · rw [w2]; cases (step e st).1.ws <;> simp
  · rintro ⟨hp, hsk⟩
    apply w3
    constructor
    · rcases hfo : (step e st).1.fetchInterval with _ | t
      · rw [w1, hfo] at hp; exact absurd rfl hp
      · simp [hfo]
    · rcases hwo : (step e st).1.ws with _ | s
      · rw [w2, hwo] at hsk; exact absurd rfl hsk
      · simp [hwo]

/-- Concrete instance of the projection property: switching a live
session to polling preserves well-formedness and emits a stop-then-start
trace. -/
theorem controller_stop_before_start_witness :
    CtrlWF (step (CtrlEvent.modeChange UpdateMode.Poll)
      (step (CtrlEvent.nameChange none) CtrlState.init).1).1 ∧
    stopsThenStarts (step (CtrlEvent.modeChange UpdateMode.Poll)
      (step (CtrlEvent.nameChange none) CtrlState.init).1).2 :=
  ⟨(controller_stop_before_start (CtrlEvent.modeChange UpdateMode.Poll)
      (step (CtrlEvent.nameChange none) CtrlState.init).1 (by decide)).1,
    (controller_stop_before_start (CtrlEvent.modeChange UpdateMode.Poll)
      (step (CtrlEvent.nameChange none) CtrlState.init).1 (by decide)).2.2.2.2.1⟩

/-- The synchronous machine `step` is the immediate-resume projection of
the refined machine `stepA`: if no other handler interleaves before a
suspended poll start's initial fetch resolves, the refined machine ends in
exactly the state `step` computes, with nothing left suspended. -/
theorem step_eq_immediate_resume (c : CtrlState) (nn : Option String) (m : UpdateMode) :
    stepA (AsyncEvent.resume 0) (stepA (AsyncEvent.nameChangeA nn) ⟨c, []⟩) =
      ⟨(step (CtrlEvent.nameChange nn) c).1, []⟩ ∧
    stepA (AsyncEvent.resume 0) (stepA (AsyncEvent.modeChangeA m) ⟨c, []⟩) =
      ⟨(step (CtrlEvent.modeChange m) c).1, []⟩ ∧
    stepA (AsyncEvent.resume 0) (stepA AsyncEvent.freqChangeA ⟨c, []⟩) =
      ⟨(step CtrlEvent.freqChange c).1, []⟩ := by
  refine ⟨?_, ?_, ?_⟩
  · cases nn with
    | some n =>
      by_cases hm : (stopUpdates c).1.updateMode = UpdateMode.Live <;>
        simp [stepA, step, beginPollStart, armPending, startLiveByName,
          startFetchingByName, hm]
    | none =>
      by_cases hm : (stopUpdates c).1.updateMode = UpdateMode.Live <;>
        simp [stepA, step, beginPollStart, armPending, startLive, startFetching, hm]
  · by_cases hm : m = UpdateMode.Live
    · subst hm
      rcases hc : (stopUpdates { c with updateMode := UpdateMode.Live }).1.currentName
        with _ | n <;>
        simp [stepA, step, startLive, startLiveByName, hc]
    · rcases hc : (stopUpdates { c with updateMode := m }).1.currentName with _ | n <;>
        simp [stepA, step, beginPollStart, armPending, startFetching,
          startFetchingByName, hc, hm]
  · rcases hf : c.fetchInterval with _ | t
    · simp [stepA, step, hf]
    · rcases hcn : c.currentName with _ | n <;>
        simp [stepA, step, beginPollStart, armPending, startFetching,
          startFetchingByName, hf, hcn]

/-- C7: within each handler the stop does precede the start, but
`startFetching` / `startFetchingByName` arm their repeating timer only
after `await`-ing the initial fetch; a transition interleaved into that
window leaves two adapters active.  Concretely, from the idle initial
state: switching to `Poll` begins a poll start that suspends at its await;
switching to `Live` then finds nothing to stop and opens the socket; when
the suspended fetch resolves, its continuation arms the interval — a poll
timer and a live connection are simultaneously active.  Likewise two
interleaved poll starts leave two intervals, with only the second tracked
by `fetchInterval` (the first is leaked). -/
theorem overlapping_adapters_after_await :
    (stepA (AsyncEvent.resume 0)
        (stepA (AsyncEvent.modeChangeA UpdateMode.Live)
          (stepA (AsyncEvent.modeChangeA UpdateMode.Poll)
            AsyncState.init))).ctrl.pollTimers = [1] ∧
    (stepA (AsyncEvent.resume 0)
        (stepA (AsyncEvent.modeChangeA UpdateMode.Live)
          (stepA (AsyncEvent.modeChangeA UpdateMode.Poll)
            AsyncState.init))).ctrl.sockets = [0] ∧
    (stepA (AsyncEvent.resume 0)
        (stepA (AsyncEvent.resume 0)
          (stepA (AsyncEvent.nameChangeA none)
            (stepA (AsyncEvent.modeChangeA UpdateMode.Poll)
              AsyncState.init)))).ctrl.pollTimers = [0, 1] ∧
    (stepA (AsyncEvent.resume 0)
        (stepA (AsyncEvent.resume 0)
          (stepA (AsyncEvent.nameChangeA none)
            (stepA (AsyncEvent.modeChangeA UpdateMode.Poll)
              AsyncState.init)))).ctrl.fetchInterval = some 1 :=
  ⟨rfl, rfl, rfl, rfl⟩

/-- C6: an unexpected close in `Live` mode schedules exactly one
reconnect attempt with a 1000 ms backoff and nothing else; switching to
`Poll` cancels the pending timer so its firing becomes a no-op; a pending
timer can only exist while the mode is `Live` (an invariant preserved by
every event), and when it does fire it opens a socket. -/
theorem live_reconnect_policy (st : CtrlState) (h : CtrlWF st) :
    (∀ s, st.ws = some s → st.wsIntentionallyClosed = false →
       st.updateMode = UpdateMode.Live →
       (step CtrlEvent.wsClose st).1.wsReconnectTimer = some 1000 ∧
       (step CtrlEvent.wsClose st).1.ws = none ∧
       (step CtrlEvent.wsClose st).2 = []) ∧
    ((step (CtrlEvent.modeChange UpdateMode.Poll) st).1.wsReconnectTimer = none) ∧
    (step CtrlEvent.reconnectFire ((step (CtrlEvent.modeChange UpdateMode.Poll) st).1) =
       ((step (CtrlEvent.modeChange UpdateMode.Poll) st).1, [])) ∧
    (st.wsReconnectTimer.isSome = true → st.updateMode = UpdateMode.Live) ∧
    (st.wsReconnectTimer.isSome = true →
       (step CtrlEvent.reconnectFire st).1.ws.isSome = true ∧
       Action.openSocket ∈ (step CtrlEvent.reconnectFire st).2) ∧
    (∀ e, CtrlWF (step e st).1) := by
  obtain ⟨h1, h2, h3, h4, h5⟩ := h
  have hclear : (step (CtrlEvent.modeChange UpdateMode.Poll) st).1.wsReconnectTimer = none := by
    obtain ⟨hfi, hpt, hws, hsk, hrt, hum, hcn, hni, hstops⟩ :=
      stopUpdates_fields { st with updateMode := UpdateMode.Poll } h1 h2
    rcases hc : (stopUpdates { st with updateMode := UpdateMode.Poll }).1.currentName
      with _ | n
    · simp only [step, hc]
      rw [if_neg (by decide : ¬ (UpdateMode.Poll = UpdateMode.Live))]
      rw [(startFetching_fields _ (by rw [hpt, hfi]; rfl)).2.2.2.1]
      exact hrt
    · simp only [step, hc]
      rw [if_neg (by decide : ¬ (UpdateMode.Poll = UpdateMode.Live))]
      rw [(startFetchingByName_fields n _ (by rw [hpt, hfi]; rfl)).2.2.2.1]
      exact hrt
  refine ⟨?_, hclear, ?_, fun ht => h5 ht, ?_, fun e => (step_spec e st ⟨h1, h2, h3, h4, h5⟩).1⟩
  · intro s hw hic hm
    simp only [step, hw]
    rw [if_pos ⟨hic, hm⟩]
    exact ⟨rfl, rfl, rfl⟩
  · generalize hX : (step (CtrlEvent.modeChange UpdateMode.Poll) st).1 = X at hclear ⊢
    simp only [step, hclear]
  · intro ht
    rcases hr : st.wsReconnectTimer with _ | d
    · rw [hr] at ht; exact absurd ht (by simp)
    · simp only [step, hr]
      obtain ⟨c1, c2, ⟨j, cj, cs⟩, c4, c5, c6, c7⟩ :=
        connectWs_fields { st with wsReconnectTimer := none } h2
      exact ⟨by rw [cj]; rfl, openSocket_mem_connectWs _⟩

/-- C6 witness: after opening a live all-users feed from the initial
state, an unexpected close schedules the 1-second reconnect timer. -/
theorem live_reconnect_policy_witness :
    (step CtrlEvent.wsClose
        (step (CtrlEvent.nameChange none) CtrlState.init).1).1.wsReconnectTimer =
      some 1000 ∧
    (step CtrlEvent.wsClose
        (step (CtrlEvent.nameChange none) CtrlState.init).1).1.ws = none ∧
    (step CtrlEvent.wsClose (step (CtrlEvent.nameChange none) CtrlState.init).1).2 = [] :=
  (live_reconnect_policy (step (CtrlEvent.nameChange none) CtrlState.init).1
      (by decide)).1 0 (by decide) (by decide) (by decide)

end StalkWeb
